import Mathlib

/-!
Verification of the gb-emu3 core against its specification.

Each hardware component the claims touch is shallowly embedded from the
C++ source: `src/src/timer/Timer.cpp`, `src/src/cpu/CPU.cpp`,
`src/src/cpu/Instructions.cpp`, `src/src/cpu/InterruptController.hpp`,
`src/src/memory/Bus.cpp`, `src/src/apu/APU.cpp`, `src/src/ppu/PPU.cpp`.
Machine integers (`uint8_t`, `uint16_t`) are modelled as `Nat` with
explicit `% 256` / `% 65536` where the C++ types truncate, and C bitwise
operators `&`, `|`, `^`, `<<`, `>>` become `&&&`, `|||`, `^^^`, `<<<`,
`>>>`.
-/

namespace GBEmu

-- ========================================================================
-- Definitions: shallow embedding of the components under test
-- ========================================================================

/-- The TIMA reload state machine of `Timer.hpp` (`TIMA_RUNNING`,
`TIMA_RELOADING`, `TIMA_RELOADED`). -/
inductive TimaReloadState where
  | running
  | reloading
  | reloaded
deriving DecidableEq, Repr

/-- Timer state, from the private section of `Timer.hpp`.  The boolean
flag consumed through `DidDivBit12Fall` is declared `div_bit12_fell` in
`Timer.hpp`; `Timer.cpp` refers to the same flag as `div_bit4_fell`. -/
structure Timer where
  div_counter : Nat          -- uint16_t
  tima : Nat                 -- uint8_t
  tma : Nat                  -- uint8_t
  tac : Nat                  -- uint8_t
  tima_reload_state : TimaReloadState
  interrupt_requested : Bool
  div_bit12_fell : Bool
deriving DecidableEq, Repr

/-- The table `BIT_SELECT` indexed by `tac_value & 0x03`
(`Timer::GetTimerBitForTAC`): masks `1<<9`, `1<<3`, `1<<5`, `1<<7`. -/
def GetTimerBitForTAC (tac_value : Nat) : Nat :=
  match tac_value &&& 0x03 with
  | 0 => 1 <<< 9
  | 1 => 1 <<< 3
  | 2 => 1 <<< 5
  | _ => 1 <<< 7

/-- `Timer::GetTimerBit`. -/
def Timer.GetTimerBit (t : Timer) : Nat :=
  GetTimerBitForTAC t.tac

/-- `Timer::IsTimerEnabled` (`tac & 0x04`). -/
def Timer.IsTimerEnabled (t : Timer) : Prop :=
  t.tac &&& 0x04 ≠ 0

instance (t : Timer) : Decidable t.IsTimerEnabled := by
  unfold Timer.IsTimerEnabled
  infer_instance

/-- `Timer::IncreaseTima`: increment TIMA (8-bit wrap); on wrap to zero
enter the `RELOADING` state. -/
def Timer.IncreaseTima (t : Timer) : Timer :=
  let tima := (t.tima + 1) % 256
  if tima = 0 then
    { t with tima := tima, tima_reload_state := .reloading }
  else
    { t with tima := tima }

/-- `Timer::AdvanceTimaStateMachine`: `RELOADED → RUNNING`;
`RELOADING → RELOADED` loading TMA into TIMA and latching the interrupt. -/
def Timer.AdvanceTimaStateMachine (t : Timer) : Timer :=
  if t.tima_reload_state = .reloaded then
    { t with tima_reload_state := .running }
  else if t.tima_reload_state = .reloading then
    { t with tima := t.tma, interrupt_requested := true,
             tima_reload_state := .reloaded }
  else
    t

/-- The divider increment of `Timer::Step` (`div_counter++`, 16-bit). -/
def Timer.stepDiv (t : Timer) : Timer :=
  { t with div_counter := (t.div_counter + 1) % 65536 }

/-- The APU-flag statement of `Timer::Step`: raise the flag on a falling
edge of the bit masked by `0x10`. -/
def Timer.stepFlag (old_div : Nat) (t : Timer) : Timer :=
  if old_div &&& 0x10 ≠ 0 ∧ t.div_counter &&& 0x10 = 0 then
    { t with div_bit12_fell := true }
  else t

/-- The reload state-machine statement of `Timer::Step`: advance once
per M-cycle (`div_counter & 0x03 == 0`). -/
def Timer.stepMachine (t : Timer) : Timer :=
  if t.div_counter &&& 0x03 = 0 then t.AdvanceTimaStateMachine else t

/-- The TIMA statement of `Timer::Step`: clock TIMA on a falling edge of
the selected divider bit while the timer is enabled. -/
def Timer.stepTap (old_div : Nat) (t : Timer) : Timer :=
  if t.IsTimerEnabled ∧ old_div &&& t.GetTimerBit ≠ 0 ∧
     t.div_counter &&& t.GetTimerBit = 0 then
    t.IncreaseTima
  else t

/-- One iteration of the `for` loop in `Timer::Step`, composing the four
statements in source order. -/
def Timer.Step1 (t : Timer) : Timer :=
  Timer.stepTap t.div_counter
    (Timer.stepMachine (Timer.stepFlag t.div_counter t.stepDiv))

/-- `Timer::Step(cycles)`: `cycles` iterations of the loop body. -/
def Timer.StepN : Nat → Timer → Timer
  | 0, t => t
  | n + 1, t => Timer.StepN n t.Step1

/-- `Timer::WriteRegister` (the `value` parameter is a `uint8_t`, hence
the truncation on entry). -/
def Timer.WriteRegister (t : Timer) (addr value : Nat) : Timer :=
  let value := value % 256
  if addr = 0xFF04 then
    let t1 :=
      if t.IsTimerEnabled ∧ t.div_counter &&& t.GetTimerBit ≠ 0 then
        t.IncreaseTima
      else t
    { t1 with div_counter := 0 }
  else if addr = 0xFF05 then
    if t.tima_reload_state ≠ .reloaded then
      let t1 := { t with tima := value }
      if t.tima_reload_state = .reloading then
        { t1 with tima_reload_state := .running }
      else t1
    else t
  else if addr = 0xFF06 then
    let t1 := { t with tma := value }
    if t.tima_reload_state ≠ .running then { t1 with tima := value } else t1
  else if addr = 0xFF07 then
    let old_tac := t.tac
    let t1 := { t with tac := value }
    let old_signal := old_tac &&& 0x04 ≠ 0 ∧
      t.div_counter &&& GetTimerBitForTAC old_tac ≠ 0
    let new_signal := value &&& 0x04 ≠ 0 ∧
      t.div_counter &&& GetTimerBitForTAC value ≠ 0
    if old_signal ∧ ¬ new_signal then t1.IncreaseTima else t1
  else
    t

/-- Concrete timer state with `div_counter = 0x001F`, exercising the APU
clock flag in `Timer::Step`. -/
def c1Timer : Timer :=
  { div_counter := 0x1F, tima := 0, tma := 0, tac := 0,
    tima_reload_state := .running, interrupt_requested := false,
    div_bit12_fell := false }

/-- Concrete timer state: TAC = 0x00 (timer disabled, tap bit 9 selected)
and `div_counter = 0x0200`, so the selected tap bit is 1. -/
def c7Timer : Timer :=
  { div_counter := 0x200, tima := 0, tma := 0, tac := 0,
    tima_reload_state := .running, interrupt_requested := false,
    div_bit12_fell := false }

/-- Concrete timer state for the C5 witness: TAC = 0x05 (enabled,
tap bit 3), divider one T-cycle before the tap falling edge, TIMA at
0xFF. -/
def c5Timer : Timer :=
  { div_counter := 15, tima := 255, tma := 0x42, tac := 0x05,
    tima_reload_state := .running, interrupt_requested := false,
    div_bit12_fell := false }

/-- The two registers of `InterruptController`. -/
structure InterruptController where
  interrupt_flag : Nat     -- uint8_t, IF ($FF0F)
  interrupt_enable : Nat   -- uint8_t, IE ($FFFF)
deriving DecidableEq, Repr

/-- `InterruptController::ReadIF` (upper three bits always 1). -/
def InterruptController.ReadIF (ic : InterruptController) : Nat :=
  ic.interrupt_flag ||| 0xE0

/-- `InterruptController::WriteIF` (stores only the low five bits; the
`value` parameter is a `uint8_t`). -/
def InterruptController.WriteIF (ic : InterruptController) (value : Nat) :
    InterruptController :=
  { ic with interrupt_flag := (value % 256) &&& 0x1F }

/-- `InterruptController::ReadIE` (all 8 bits readable). -/
def InterruptController.ReadIE (ic : InterruptController) : Nat :=
  ic.interrupt_enable

/-- `InterruptController::WriteIE` (all 8 bits stored; the `value`
parameter is a `uint8_t`). -/
def InterruptController.WriteIE (ic : InterruptController) (value : Nat) :
    InterruptController :=
  { ic with interrupt_enable := value % 256 }

/-- The CPU state touched by HALT and the instruction fetch
(`CPU.hpp`). -/
structure CPUState where
  pc : Nat        -- uint16_t
  ime : Bool
  halted : Bool
  halt_bug : Bool
deriving DecidableEq, Repr

/-- The `HALT` instruction of `Instructions.cpp`: with IME clear and
`(IF & IE & 0x1F) != 0` it sets the halt-bug latch and does not halt;
otherwise it halts.  IF and IE are peeked through the bus, which routes
them to the interrupt controller. -/
def HALT (ic : InterruptController) (cpu : CPUState) : CPUState :=
  if cpu.ime = false then
    if ic.ReadIF &&& ic.ReadIE &&& 0x1F ≠ 0 then
      { cpu with halt_bug := true }
    else
      { cpu with halted := true }
  else
    { cpu with halted := true }

/-- `CPU::FetchByte`: read the byte at PC and increment PC (16-bit). -/
def FetchByte (mem : Nat → Nat) (cpu : CPUState) : Nat × CPUState :=
  ((mem cpu.pc) % 256, { cpu with pc := (cpu.pc + 1) % 65536 })

/-- The fetch portion of `CPU::Step`: fetch the opcode, then, if the
halt-bug latch is set, decrement PC (so the next fetch re-reads the same
byte) and clear the latch. -/
def stepFetch (mem : Nat → Nat) (cpu : CPUState) : Nat × CPUState :=
  let f := FetchByte mem cpu
  if f.2.halt_bug then
    (f.1, { f.2 with pc := (f.2.pc + 65535) % 65536, halt_bug := false })
  else
    f

/-- The machine state `CPU::HandleInterrupts` interacts with through the
bus: CPU registers, the interrupt controller (reached at $FF0F/$FFFF via
`Emulator::ReadIO`/`WriteIO`), and the remaining byte storage. -/
structure DispatchState where
  pc : Nat        -- uint16_t
  sp : Nat        -- uint16_t
  ime : Bool
  halted : Bool
  ic : InterruptController
  ram : Nat → Nat

/-- The bus-read wiring used by the dispatch: $FF0F is
`InterruptController::ReadIF`, $FFFF is `ReadIE`, anything else is plain
byte storage. -/
def dspRead (s : DispatchState) (addr : Nat) : Nat :=
  if addr = 0xFF0F then s.ic.ReadIF
  else if addr = 0xFFFF then s.ic.ReadIE
  else (s.ram addr) % 256

/-- The bus-write wiring used by the dispatch: $FF0F is
`InterruptController::WriteIF`, $FFFF is `WriteIE`, anything else is
plain byte storage. -/
def dspWrite (s : DispatchState) (addr value : Nat) : DispatchState :=
  if addr = 0xFF0F then { s with ic := s.ic.WriteIF value }
  else if addr = 0xFFFF then { s with ic := s.ic.WriteIE value }
  else { s with ram := Function.update s.ram addr (value % 256) }

/-- The `sp--; WriteByte(sp, v)` pair used for each stack push of the
dispatch. -/
def pushByte (s : DispatchState) (v : Nat) : DispatchState :=
  dspWrite { s with sp := (s.sp + 65535) % 65536 } ((s.sp + 65535) % 65536) v

/-- The first `j` in `0..4` with bit `j` of `n` set (the inner `for (j)`
selection loop of `CPU::HandleInterrupts`; `n` is always masked to five
bits and nonzero when this is reached). -/
def lowestSetBit5 (n : Nat) : Nat :=
  if n &&& 1 ≠ 0 then 0
  else if n &&& 2 ≠ 0 then 1
  else if n &&& 4 ≠ 0 then 2
  else if n &&& 8 ≠ 0 then 3
  else 4

/-- The dispatch body of `CPU::HandleInterrupts` (the part inside
`if (pending)`/`if (ime)`): push the PC high byte, re-read IE, push the
PC low byte, recompute the pending set against the re-read IE, and
either cancel to $0000 or clear the selected IF bit and jump to its
vector.  `if_reg` is the IF value read at entry (the code reuses it).
The outer `for (i)` loop only gates entry on `pending` having a set
bit and does not otherwise affect the body, which is `i`-independent. -/
def dispatchInterrupt (s : DispatchState) (if_reg : Nat) : DispatchState :=
  let s2 := pushByte s (s.pc >>> 8)
  let ie2 := dspRead s2 0xFFFF
  let s3 := pushByte s2 (s2.pc &&& 0xFF)
  let np := if_reg &&& ie2 &&& 0x1F
  if np = 0 then
    { s3 with pc := 0 }
  else
    let j := lowestSetBit5 np
    { dspWrite s3 0xFF0F (if_reg &&& (0xFF ^^^ (1 <<< j))) with
      pc := 0x40 + j * 8 }

/-- `CPU::HandleInterrupts`: read IF and IE, compute the pending set; if
nonzero, wake from HALT, and if IME is set run the dispatch. -/
def HandleInterrupts (s : DispatchState) : DispatchState :=
  let if_reg := dspRead s 0xFF0F
  let ie_reg := dspRead s 0xFFFF
  let pending := if_reg &&& ie_reg &&& 0x1F
  if pending = 0 then s
  else
    let s0 := { s with halted := false }
    if s0.ime = false then s0
    else dispatchInterrupt { s0 with ime := false } if_reg

/-- Concrete state for the C2 witness: IME on, IF = 0x05, IE = 0x09
(VBlank pending, bit 0 lowest), SP = 0xFFFE so neither push touches
$FF0F or $FFFF. -/
def c2State : DispatchState :=
  { pc := 0x1234, sp := 0xFFFE, ime := true, halted := false,
    ic := { interrupt_flag := 0x05, interrupt_enable := 0x09 },
    ram := fun _ => 0 }

/-- The bus classes of `Bus.cpp` (`enum class BusType`). -/
inductive BusType where
  | external
  | vram
  | internal
deriving DecidableEq, Repr

/-- `GetBusForAddress`: 0000-7FFF and A000-FDFF are the external bus,
8000-9FFF the video bus, FE00-FFFF the internal bus. -/
def GetBusForAddress (addr : Nat) : BusType :=
  if addr < 0x8000 then .external
  else if addr < 0xA000 then .vram
  else if addr < 0xFE00 then .external
  else .internal

/-- The bus with its wired read handlers and the DMA query callbacks
(`Bus.hpp`).  The emulator wires every handler, so they are modelled as
total functions; `OPEN_BUS` is 0xFF. -/
structure Bus where
  bootrom_enabled : Bool
  bootrom_read : Nat → Nat
  cart_read : Nat → Nat
  vram_read : Nat → Nat
  wram_read : Nat → Nat
  oam_read : Nat → Nat
  io_read : Nat → Nat
  hram_read : Nat → Nat
  ie_read : Nat → Nat
  dma_active : Bool
  dma_source : Nat
  dma_blocking_oam : Bool

/-- The address decoder of `Bus::Read` (everything after the DMA
conflict check): boot-ROM overlay, cartridge, VRAM, external RAM, work
RAM, echo, OAM (blocked during DMA), unusable, I/O, HRAM, IE. -/
def Bus.Decode (b : Bus) (addr : Nat) : Nat :=
  if b.bootrom_enabled ∧ addr < 0x0100 then b.bootrom_read addr
  else if addr < 0x8000 then b.cart_read addr
  else if addr < 0xA000 then b.vram_read addr
  else if addr < 0xC000 then b.cart_read addr
  else if addr < 0xE000 then b.wram_read addr
  else if addr < 0xFE00 then b.wram_read (addr - 0x2000)
  else if addr < 0xFEA0 then
    (if b.dma_blocking_oam then 0xFF else b.oam_read addr)
  else if addr < 0xFF00 then 0xFF
  else if addr < 0xFF80 then b.io_read addr
  else if addr < 0xFFFF then b.hram_read addr
  else b.ie_read addr

/-- `Bus::Read`: during OAM DMA, a read below $FE00 that resolves to
the same bus class as the DMA source returns `OPEN_BUS` (0xFF);
otherwise the address decodes normally. -/
def Bus.Read (b : Bus) (addr : Nat) : Nat :=
  if b.dma_active ∧ addr < 0xFE00 ∧
      GetBusForAddress addr = GetBusForAddress b.dma_source then
    0xFF
  else
    b.Decode addr

/-- Concrete bus for the C6 witness: DMA active with source 0xC000
(external bus); handlers return recognisable values. -/
def c6Bus : Bus :=
  { bootrom_enabled := false
    bootrom_read := fun _ => 0x11
    cart_read := fun _ => 0x22
    vram_read := fun _ => 0x33
    wram_read := fun _ => 0x44
    oam_read := fun _ => 0x55
    io_read := fun _ => 0x66
    hram_read := fun _ => 0x77
    ie_read := fun _ => 0x88
    dma_active := true
    dma_source := 0xC000
    dma_blocking_oam := true }

/-- Channel 1 (pulse with sweep), fields as in `APU.hpp`. -/
structure Channel1 where
  sweep_period : Nat
  sweep_negate : Bool
  sweep_shift : Nat
  duty : Nat
  length_load : Nat
  volume_init : Nat
  envelope_add : Bool
  envelope_period : Nat
  frequency : Nat
  length_enable : Bool
  enabled : Bool
  volume : Nat
  envelope_timer : Nat
  sweep_timer : Nat
  shadow_freq : Nat
  sweep_enabled : Bool
  swept_negate : Bool
  length_counter : Nat
  frequency_timer : Nat
  duty_position : Nat
deriving DecidableEq, Repr

/-- The value-initialised channel (`ch1 = {}` in C++). -/
def Channel1.clear : Channel1 :=
  ⟨0, false, 0, 0, 0, 0, false, 0, 0, false, false, 0, 0, 0, 0, false,
    false, 0, 0, 0⟩

/-- Channel 2 (pulse), fields as in `APU.hpp`. -/
structure Channel2 where
  duty : Nat
  length_load : Nat
  volume_init : Nat
  envelope_add : Bool
  envelope_period : Nat
  frequency : Nat
  length_enable : Bool
  enabled : Bool
  volume : Nat
  envelope_timer : Nat
  length_counter : Nat
  frequency_timer : Nat
  duty_position : Nat
deriving DecidableEq, Repr

/-- The value-initialised channel (`ch2 = {}` in C++). -/
def Channel2.clear : Channel2 :=
  ⟨0, 0, 0, false, 0, 0, false, false, 0, 0, 0, 0, 0⟩

/-- Channel 3 (wave), fields as in `APU.hpp` (`frequency_timer` is a
signed `int16_t`). -/
structure Channel3 where
  dac_enabled : Bool
  length_load : Nat
  volume_code : Nat
  frequency : Nat
  length_enable : Bool
  enabled : Bool
  length_counter : Nat
  frequency_timer : Int
  position : Nat
  sample_buffer : Nat
  wave_form_just_read : Bool
deriving DecidableEq, Repr

/-- The value-initialised channel (`ch3 = {}` in C++). -/
def Channel3.clear : Channel3 :=
  ⟨false, 0, 0, 0, false, false, 0, 0, 0, 0, false⟩

/-- Channel 4 (noise), fields as in `APU.hpp` (`frequency_timer` is a
signed `int32_t`). -/
structure Channel4 where
  length_load : Nat
  volume_init : Nat
  envelope_add : Bool
  envelope_period : Nat
  clock_shift : Nat
  width_mode : Bool
  divisor_code : Nat
  length_enable : Bool
  enabled : Bool
  volume : Nat
  envelope_timer : Nat
  length_counter : Nat
  frequency_timer : Int
  lfsr : Nat
deriving DecidableEq, Repr

/-- The value-initialised channel (`ch4 = {}` in C++). -/
def Channel4.clear : Channel4 :=
  ⟨0, 0, false, 0, 0, false, 0, false, false, 0, 0, 0, 0, 0⟩

/-- The APU state touched by the power and wave-RAM operations
(`APU.hpp`; the float sample-output fields are not modelled). -/
structure APU where
  ch1 : Channel1
  ch2 : Channel2
  ch3 : Channel3
  ch4 : Channel4
  power_on : Bool
  nr50 : Nat
  channel_left : Nat
  channel_right : Nat
  io_registers : Fin 24 → Nat
  wave_ram : Fin 16 → Nat
  frame_sequencer_step : Nat
  skip_first_div_event : Bool
  div_bit12_high : Bool

/-- The `0xFF26` (NR52) case of `APU::WriteRegister`: on power off
(`bit 7` cleared while on) clear channels, mixer, frame sequencer and
raw registers; on power on restore the length counters saved at the
top of this call and evaluate the DIV-bit skip glitch.  The write gates
at the head of `WriteRegister` always pass for `0xFF26`. -/
def APU.WriteNR52 (a : APU) (value : Nat) : APU :=
  let value := value % 256
  let old_power := a.power_on
  let new_power : Bool := ((value >>> 7) &&& 1) != 0
  let saved1 := a.ch1.length_counter
  let saved2 := a.ch2.length_counter
  let saved3 := a.ch3.length_counter
  let saved4 := a.ch4.length_counter
  let a1 :=
    if new_power = false ∧ old_power = true then
      { a with ch1 := Channel1.clear, ch2 := Channel2.clear,
               ch3 := Channel3.clear, ch4 := Channel4.clear,
               nr50 := 0, channel_left := 0, channel_right := 0,
               frame_sequencer_step := 0, io_registers := fun _ => 0 }
    else a
  let a2 := { a1 with power_on := new_power }
  if new_power = true ∧ old_power = false then
    let a3 := { a2 with frame_sequencer_step := 0 }
    let a4 :=
      if a3.div_bit12_high = true then
        { a3 with skip_first_div_event := true }
      else a3
    { a4 with ch1 := { a4.ch1 with length_counter := saved1 },
              ch2 := { a4.ch2 with length_counter := saved2 },
              ch3 := { a4.ch3 with length_counter := saved3 },
              ch4 := { a4.ch4 with length_counter := saved4 } }
  else a2

/-- `APU::ReadWaveRAM`: while channel 3 is active the read returns 0xFF
unless the one-cycle `wave_form_just_read` window is open, in which
case it returns the byte at the channel's current position. -/
def APU.ReadWaveRAM (a : APU) (index : Fin 16) : Nat :=
  if a.ch3.enabled = true then
    if a.ch3.wave_form_just_read = true then
      a.wave_ram ⟨a.ch3.position / 2 % 16, Nat.mod_lt _ (by norm_num)⟩
    else 0xFF
  else a.wave_ram index

/-- `APU::WriteWaveRAM`: an unconditional store (the `value` parameter
is a `uint8_t`). -/
def APU.WriteWaveRAM (a : APU) (index : Fin 16) (value : Nat) :
    APU :=
  { a with wave_ram := Function.update a.wave_ram index (value % 256) }

/-- Concrete APU state for C3: powered on, nonzero length counters,
wave RAM filled with 0xAB. -/
def c3APU : APU :=
  { ch1 := { Channel1.clear with length_counter := 5, enabled := true },
    ch2 := { Channel2.clear with length_counter := 6 },
    ch3 := { Channel3.clear with length_counter := 7 },
    ch4 := { Channel4.clear with length_counter := 8 },
    power_on := true, nr50 := 0x77, channel_left := 3, channel_right := 4,
    io_registers := fun _ => 0x12, wave_ram := fun _ => 0xAB,
    frame_sequencer_step := 5, skip_first_div_event := false,
    div_bit12_high := false }

/-- Concrete APU state for the C10 witness: channel 3 active, outside
the just-read window. -/
def c10APU : APU :=
  { c3APU with ch3 := { Channel3.clear with enabled := true } }

/-- `PPU::SpriteEntry` from `PPU.hpp`. -/
structure SpriteEntry where
  y : Nat
  x : Nat
  tile : Nat
  flags : Nat
  oam_index : Nat
deriving DecidableEq, Repr

/-- The insert-sort of `PPU::StepOAMScan`: scan for the first retained
sprite whose X is `<=` the new sprite's X and insert in front of it
(so higher X comes first). -/
def insertSprite : List SpriteEntry → SpriteEntry → List SpriteEntry
  | [], s => [s]
  | a :: rest, s =>
    if a.x ≤ s.x then s :: a :: rest else a :: insertSprite rest s

/-- One OAM entry check of `PPU::StepOAMScan` (performed every two
dots): with fewer than 10 sprites retained, read the entry's Y and X,
and retain it when its span covers the scanline. -/
def oamScanStep (oam : Nat → Nat) (ly : Nat) (tall : Bool)
    (acc : List SpriteEntry) (entry : Nat) : List SpriteEntry :=
  if acc.length < 10 then
    let y := oam (entry * 4) % 256
    let x := oam (entry * 4 + 1) % 256
    let height := if tall then 16 else 8
    if y ≤ ly + 16 ∧ ly + 16 < y + height then
      insertSprite acc
        ⟨y, x, oam (entry * 4 + 2) % 256, oam (entry * 4 + 3) % 256, entry⟩
    else acc
  else acc

/-- The cumulative effect of the mode-2 scan over all 40 OAM entries
(entry `dot/2` is checked at dot `2*entry`, in increasing order). -/
def oamScan (oam : Nat → Nat) (ly : Nat) (tall : Bool) : List SpriteEntry :=
  (List.range 40).foldl (oamScanStep oam ly tall) []

/-- The order actually established by the insert-sort: higher X first;
among equal X the later OAM entry (higher index) first. -/
def SpriteOrder (a b : SpriteEntry) : Prop :=
  b.x < a.x ∨ (a.x = b.x ∧ b.oam_index < a.oam_index)

instance (a b : SpriteEntry) : Decidable (SpriteOrder a b) := by
  unfold SpriteOrder
  infer_instance

/-- Concrete OAM for the C4 counterexample: entry 0 at X = 10 and entry
1 at X = 20, both with Y = 16 so both cover scanline 0. -/
def c4OAM : Nat → Nat :=
  fun addr =>
    if addr = 0 then 16
    else if addr = 1 then 10
    else if addr = 4 then 16
    else if addr = 5 then 20
    else 0

-- ========================================================================
-- Theorems: the claims, their witnesses and counterexamples
-- ========================================================================

theorem Timer.IncreaseTima_tima (t : Timer) :
    (t.IncreaseTima).tima = (t.tima + 1) % 256 := by
  unfold Timer.IncreaseTima
  dsimp only
  split <;> rfl

theorem Timer.IncreaseTima_div (t : Timer) :
    (t.IncreaseTima).div_counter = t.div_counter := by
  unfold Timer.IncreaseTima
  dsimp only
  split <;> rfl

theorem Timer.IncreaseTima_of_255 {t : Timer} (h : t.tima = 255) :
    t.IncreaseTima = { t with tima := 0, tima_reload_state := .reloading } := by
  unfold Timer.IncreaseTima
  rw [h]
  norm_num

theorem Timer.GetTimerBit_congr {t u : Timer} (h : u.tac = t.tac) :
    u.GetTimerBit = t.GetTimerBit := by
  unfold Timer.GetTimerBit
  rw [h]

theorem Timer.IsTimerEnabled_congr {t u : Timer} (h : u.tac = t.tac) :
    u.IsTimerEnabled ↔ t.IsTimerEnabled := by
  unfold Timer.IsTimerEnabled
  rw [h]

/-- The four TAC tap selections are the powers of two `2^9`, `2^3`,
`2^5`, `2^7`. -/
theorem Timer.GetTimerBit_pow (t : Timer) :
    ∃ b, 3 ≤ b ∧ b ≤ 9 ∧ t.GetTimerBit = 2 ^ b := by
  have hmod : t.tac &&& 0x03 = t.tac % 4 := by
    have h := Nat.and_pow_two_sub_one_eq_mod t.tac 2
    norm_num at h
    exact h
  have hlt : t.tac &&& 0x03 < 4 := by omega
  have h : t.tac &&& 0x03 = 0 ∨ t.tac &&& 0x03 = 1 ∨ t.tac &&& 0x03 = 2 ∨
      t.tac &&& 0x03 = 3 := by omega
  rcases h with h | h | h | h
  · exact ⟨9, by norm_num, by norm_num,
      by unfold Timer.GetTimerBit GetTimerBitForTAC; rw [h]; decide⟩
  · exact ⟨3, by norm_num, by norm_num,
      by unfold Timer.GetTimerBit GetTimerBitForTAC; rw [h]; decide⟩
  · exact ⟨5, by norm_num, by norm_num,
      by unfold Timer.GetTimerBit GetTimerBitForTAC; rw [h]; decide⟩
  · exact ⟨7, by norm_num, by norm_num,
      by unfold Timer.GetTimerBit GetTimerBitForTAC; rw [h]; decide⟩

theorem mod_step {x M k : Nat} (hdvd : M ∣ 65536) (hM : 2 ≤ M)
    (hx : x % M = k) (hk : k + 1 < M) :
    ((x + 1) % 65536) % M = k + 1 := by
  have h1 : (1 : Nat) % M = 1 := Nat.mod_eq_of_lt (by omega)
  rw [Nat.mod_mod_of_dvd _ hdvd, Nat.add_mod, hx, h1, Nat.mod_eq_of_lt hk]

theorem mod_step_wrap {x M : Nat} (hdvd : M ∣ 65536) (hM : 2 ≤ M)
    (hx : x % M = M - 1) :
    ((x + 1) % 65536) % M = 0 := by
  have h1 : (1 : Nat) % M = 1 := Nat.mod_eq_of_lt (by omega)
  rw [Nat.mod_mod_of_dvd _ hdvd, Nat.add_mod, hx, h1]
  have h2 : M - 1 + 1 = M := by omega
  rw [h2, Nat.mod_self]

/-- A number whose residue modulo `2^(b+1)` is below `2^b` has bit `b`
clear. -/
theorem land_pow_eq_zero_of_mod_lt {x b r : Nat} (hx : x % 2 ^ (b + 1) = r)
    (hr : r < 2 ^ b) :
    x &&& 2 ^ b = 0 := by
  have h1 : x.testBit b = (x % 2 ^ (b + 1)).testBit b := by
    simp [Nat.testBit_mod_two_pow]
  have h2 : x.testBit b = false := by
    rw [h1, hx]
    exact Nat.testBit_lt_two_pow hr
  rw [Nat.and_two_pow, h2]
  simp

/-- A number whose residue modulo `2^(b+1)` is `2^(b+1) - 1` has bit `b`
set. -/
theorem land_pow_ne_zero_of_mod_max {x b : Nat}
    (hx : x % 2 ^ (b + 1) = 2 ^ (b + 1) - 1) :
    x &&& 2 ^ b ≠ 0 := by
  have h1 : x.testBit b = (x % 2 ^ (b + 1)).testBit b := by
    simp [Nat.testBit_mod_two_pow]
  have h2 : x.testBit b = true := by
    rw [h1, hx, Nat.testBit_two_pow_sub_one]
    simp
  rw [Nat.and_two_pow, h2]
  simp

theorem Timer.stepFlagDiv_fields (t : Timer) (o : Nat) :
    (Timer.stepFlag o t.stepDiv).div_counter = (t.div_counter + 1) % 65536 ∧
    (Timer.stepFlag o t.stepDiv).tima = t.tima ∧
    (Timer.stepFlag o t.stepDiv).tma = t.tma ∧
    (Timer.stepFlag o t.stepDiv).tac = t.tac ∧
    (Timer.stepFlag o t.stepDiv).tima_reload_state = t.tima_reload_state ∧
    (Timer.stepFlag o t.stepDiv).interrupt_requested =
      t.interrupt_requested := by
  unfold Timer.stepFlag Timer.stepDiv
  split <;> exact ⟨rfl, rfl, rfl, rfl, rfl, rfl⟩

theorem Timer.stepMachine_skip {t : Timer} (h : t.div_counter &&& 0x03 ≠ 0) :
    t.stepMachine = t := by
  unfold Timer.stepMachine
  rw [if_neg h]

theorem Timer.stepMachine_run {t : Timer} (h : t.div_counter &&& 0x03 = 0) :
    t.stepMachine = t.AdvanceTimaStateMachine := by
  unfold Timer.stepMachine
  rw [if_pos h]

theorem Timer.stepTap_skip {o : Nat} {t : Timer}
    (h : o &&& t.GetTimerBit = 0) :
    Timer.stepTap o t = t := by
  unfold Timer.stepTap
  rw [if_neg]
  rintro ⟨-, h2, -⟩
  exact h2 h

theorem Timer.stepTap_run {o : Nat} {t : Timer} (h1 : t.IsTimerEnabled)
    (h2 : o &&& t.GetTimerBit ≠ 0) (h3 : t.div_counter &&& t.GetTimerBit = 0) :
    Timer.stepTap o t = t.IncreaseTima := by
  unfold Timer.stepTap
  rw [if_pos ⟨h1, h2, h3⟩]

theorem Timer.Advance_running {t : Timer}
    (h : t.tima_reload_state = .running) :
    t.AdvanceTimaStateMachine = t := by
  unfold Timer.AdvanceTimaStateMachine
  rw [h]
  simp

theorem Timer.Advance_reloading {t : Timer}
    (h : t.tima_reload_state = .reloading) :
    t.AdvanceTimaStateMachine =
      { t with tima := t.tma, interrupt_requested := true,
               tima_reload_state := .reloaded } := by
  unfold Timer.AdvanceTimaStateMachine
  rw [h]
  simp

/-- A T-cycle whose incremented divider is not on an M-cycle boundary
and whose tap bit stays clear changes nothing but the divider (and
possibly the APU flag). -/
theorem Timer.step1_quiet (t : Timer) (b : Nat) (hb3 : 3 ≤ b)
    (hbit : t.GetTimerBit = 2 ^ b)
    (hk : t.div_counter % 2 ^ (b + 1) ≤ 2) :
    (t.Step1).div_counter = (t.div_counter + 1) % 65536 ∧
    (t.Step1).tima = t.tima ∧ (t.Step1).tma = t.tma ∧
    (t.Step1).tac = t.tac ∧
    (t.Step1).tima_reload_state = t.tima_reload_state ∧
    (t.Step1).interrupt_requested = t.interrupt_requested := by
  have hMdvd : (4 : Nat) ∣ 2 ^ (b + 1) := by
    have h := pow_dvd_pow 2 (show 2 ≤ b + 1 by omega)
    simpa using h
  have hmod4 : t.div_counter % 4 ≤ 2 := by
    have h := Nat.mod_mod_of_dvd t.div_counter hMdvd
    omega
  have hmach : ((t.div_counter + 1) % 65536) &&& 0x03 ≠ 0 := by
    have h3 := Nat.and_pow_two_sub_one_eq_mod ((t.div_counter + 1) % 65536) 2
    norm_num at h3
    have h4 : ((t.div_counter + 1) % 65536) % 4 = (t.div_counter + 1) % 4 :=
      Nat.mod_mod_of_dvd _ (by norm_num)
    omega
  have h8 : (8 : Nat) ≤ 2 ^ b := by
    calc (8 : Nat) = 2 ^ 3 := by norm_num
    _ ≤ 2 ^ b := Nat.pow_le_pow_right (by norm_num) hb3
  have htapold : t.div_counter &&& t.GetTimerBit = 0 := by
    rw [hbit]
    exact land_pow_eq_zero_of_mod_lt rfl (by omega)
  obtain ⟨hd, hti, htm, hta, hts, hiq⟩ :=
    Timer.stepFlagDiv_fields t t.div_counter
  set u := Timer.stepFlag t.div_counter t.stepDiv with hu
  have hmach2 : u.div_counter &&& 0x03 ≠ 0 := by rw [hd]; exact hmach
  have hskip : u.stepMachine = u := Timer.stepMachine_skip hmach2
  have hbitu : t.div_counter &&& u.GetTimerBit = 0 := by
    rw [Timer.GetTimerBit_congr hta]
    exact htapold
  have e : t.Step1 = Timer.stepTap t.div_counter u.stepMachine := rfl
  rw [e, hskip, Timer.stepTap_skip hbitu]
  exact ⟨hd, hti, htm, hta, hts, hiq⟩

/-- A T-cycle that lands on an M-cycle boundary with the tap bit clear
runs the reload state machine and nothing else. -/
theorem Timer.step1_mach (t : Timer) (b : Nat) (hb3 : 3 ≤ b)
    (hbit : t.GetTimerBit = 2 ^ b)
    (hk : t.div_counter % 2 ^ (b + 1) = 3) :
    (t.Step1).div_counter = (t.div_counter + 1) % 65536 ∧
    (t.Step1).tima = (t.AdvanceTimaStateMachine).tima ∧
    (t.Step1).tma = t.tma ∧ (t.Step1).tac = t.tac ∧
    (t.Step1).tima_reload_state =
      (t.AdvanceTimaStateMachine).tima_reload_state ∧
    (t.Step1).interrupt_requested =
      (t.AdvanceTimaStateMachine).interrupt_requested := by
  have hMdvd : (4 : Nat) ∣ 2 ^ (b + 1) := by
    have h := pow_dvd_pow 2 (show 2 ≤ b + 1 by omega)
    simpa using h
  have hmod4 : t.div_counter % 4 = 3 := by
    have h := Nat.mod_mod_of_dvd t.div_counter hMdvd
    omega
  have hmach : ((t.div_counter + 1) % 65536) &&& 0x03 = 0 := by
    have h3 := Nat.and_pow_two_sub_one_eq_mod ((t.div_counter + 1) % 65536) 2
    norm_num at h3
    have h4 : ((t.div_counter + 1) % 65536) % 4 = (t.div_counter + 1) % 4 :=
      Nat.mod_mod_of_dvd _ (by norm_num)
    omega
  have h8 : (8 : Nat) ≤ 2 ^ b := by
    calc (8 : Nat) = 2 ^ 3 := by norm_num
    _ ≤ 2 ^ b := Nat.pow_le_pow_right (by norm_num) hb3
  have htapold : t.div_counter &&& t.GetTimerBit = 0 := by
    rw [hbit]
    exact land_pow_eq_zero_of_mod_lt hk (by omega)
  obtain ⟨hd, hti, htm, hta, hts, hiq⟩ :=
    Timer.stepFlagDiv_fields t t.div_counter
  set u := Timer.stepFlag t.div_counter t.stepDiv with hu
  have hmach2 : u.div_counter &&& 0x03 = 0 := by rw [hd]; exact hmach
  have hrun : u.stepMachine = u.AdvanceTimaStateMachine :=
    Timer.stepMachine_run hmach2
  have e : t.Step1 = Timer.stepTap t.div_counter u.stepMachine := rfl
  -- the state machine result, in terms of the fields of t
  have hadv : (u.AdvanceTimaStateMachine).div_counter = u.div_counter ∧
      (u.AdvanceTimaStateMachine).tima = (t.AdvanceTimaStateMachine).tima ∧
      (u.AdvanceTimaStateMachine).tma = t.tma ∧
      (u.AdvanceTimaStateMachine).tac = t.tac ∧
      (u.AdvanceTimaStateMachine).tima_reload_state =
        (t.AdvanceTimaStateMachine).tima_reload_state ∧
      (u.AdvanceTimaStateMachine).interrupt_requested =
        (t.AdvanceTimaStateMachine).interrupt_requested := by
    unfold Timer.AdvanceTimaStateMachine
    rw [hts]
    split_ifs
    · exact ⟨rfl, hti, htm, hta, rfl, hiq⟩
    · exact ⟨rfl, htm, htm, hta, rfl, rfl⟩
    · exact ⟨rfl, hti, htm, hta, hts, hiq⟩
  have hbitu : t.div_counter &&& (u.AdvanceTimaStateMachine).GetTimerBit = 0 := by
    rw [Timer.GetTimerBit_congr hadv.2.2.2.1]
    rw [hbit]
    exact land_pow_eq_zero_of_mod_lt hk (by omega)
  rw [e, hrun, Timer.stepTap_skip hbitu]
  refine ⟨?_, hadv.2.1, hadv.2.2.1, hadv.2.2.2.1, hadv.2.2.2.2.1,
    hadv.2.2.2.2.2⟩
  rw [hadv.1, hd]

/-- The overflow T-cycle: the divider crosses a tap-bit boundary while
TIMA is 0xFF, so TIMA wraps to zero and enters the `RELOADING` state; no
interrupt is latched on this cycle. -/
theorem Timer.step1_overflow (t : Timer) (b : Nat) (hb3 : 3 ≤ b)
    (hb9 : b ≤ 9)
    (hbit : t.GetTimerBit = 2 ^ b)
    (hen : t.IsTimerEnabled)
    (hk : t.div_counter % 2 ^ (b + 1) = 2 ^ (b + 1) - 1)
    (htima : t.tima = 255)
    (hst : t.tima_reload_state = .running) :
    (t.Step1).div_counter = (t.div_counter + 1) % 65536 ∧
    (t.Step1).tima = 0 ∧
    (t.Step1).tima_reload_state = .reloading ∧
    (t.Step1).interrupt_requested = t.interrupt_requested ∧
    (t.Step1).tma = t.tma ∧ (t.Step1).tac = t.tac := by
  have hMdvd : (4 : Nat) ∣ 2 ^ (b + 1) := by
    have h := pow_dvd_pow 2 (show 2 ≤ b + 1 by omega)
    simpa using h
  have hM16 : (16 : Nat) ≤ 2 ^ (b + 1) := by
    calc (16 : Nat) = 2 ^ 4 := by norm_num
    _ ≤ 2 ^ (b + 1) := Nat.pow_le_pow_right (by norm_num) (by omega)
  have hdvd : (2 : Nat) ^ (b + 1) ∣ 65536 := by
    have h := pow_dvd_pow 2 (show b + 1 ≤ 16 by omega)
    norm_num at h
    exact h
  have hmod4 : t.div_counter % 4 = 3 := by
    have h := Nat.mod_mod_of_dvd t.div_counter hMdvd
    have h2 : (2 ^ (b + 1) - 1) % 4 = 3 := by
      obtain ⟨c, hc⟩ := hMdvd
      omega
    omega
  have hmach : ((t.div_counter + 1) % 65536) &&& 0x03 = 0 := by
    have h3 := Nat.and_pow_two_sub_one_eq_mod ((t.div_counter + 1) % 65536) 2
    norm_num at h3
    have h4 : ((t.div_counter + 1) % 65536) % 4 = (t.div_counter + 1) % 4 :=
      Nat.mod_mod_of_dvd _ (by norm_num)
    omega
  obtain ⟨hd, hti, htm, hta, hts, hiq⟩ :=
    Timer.stepFlagDiv_fields t t.div_counter
  set u := Timer.stepFlag t.div_counter t.stepDiv with hu
  have hmach2 : u.div_counter &&& 0x03 = 0 := by rw [hd]; exact hmach
  have hrun : u.stepMachine = u.AdvanceTimaStateMachine :=
    Timer.stepMachine_run hmach2
  have hstu : u.tima_reload_state = .running := by rw [hts, hst]
  have hadv : u.AdvanceTimaStateMachine = u := Timer.Advance_running hstu
  have e : t.Step1 = Timer.stepTap t.div_counter u.stepMachine := rfl
  have hbitu : u.GetTimerBit = 2 ^ b := by
    rw [Timer.GetTimerBit_congr hta, hbit]
  have henu : u.IsTimerEnabled := (Timer.IsTimerEnabled_congr hta).mpr hen
  have holdbit : t.div_counter &&& u.GetTimerBit ≠ 0 := by
    rw [hbitu]
    exact land_pow_ne_zero_of_mod_max hk
  have hnewbit : u.div_counter &&& u.GetTimerBit = 0 := by
    rw [hbitu]
    have hr0 : u.div_counter % 2 ^ (b + 1) = 0 := by
      rw [hd]
      exact mod_step_wrap hdvd (by omega) hk
    exact land_pow_eq_zero_of_mod_lt hr0 (by positivity)
  have htapr : Timer.stepTap t.div_counter u.AdvanceTimaStateMachine =
      u.IncreaseTima := by
    rw [hadv]
    exact Timer.stepTap_run henu holdbit hnewbit
  have hinc : u.IncreaseTima =
      { u with tima := 0, tima_reload_state := .reloading } :=
    Timer.IncreaseTima_of_255 (by rw [hti, htima])
  rw [e, hrun, htapr, hinc]
  exact ⟨hd, rfl, rfl, hiq, htm, hta⟩

/-- A TIMA write during the `RELOADING` state cancels the pending reload
(the `0xFF05` case of `Timer::WriteRegister`). -/
theorem Timer.writeTIMA_cancel {t : Timer} (v : Nat)
    (h : t.tima_reload_state = .reloading) :
    t.WriteRegister 0xFF05 v =
      { t with tima := v % 256, tima_reload_state := .running } := by
  have e : t.WriteRegister 0xFF05 v =
      (if t.tima_reload_state ≠ .reloaded then
        (if t.tima_reload_state = .reloading then
          { t with tima := v % 256, tima_reload_state := .running }
        else { t with tima := v % 256 })
      else t) := rfl
  rw [e, if_pos (by rw [h]; simp), if_pos h]

/-- Stepping a timer that is in the `RUNNING` state with no interrupt
latched cannot latch an interrupt before the next tap falling edge;
here stated for divider residues that stay within the first M-cycle
after a tap boundary. -/
theorem Timer.run_no_interrupt (n : Nat) :
    ∀ (w : Timer) (b : Nat), 3 ≤ b → b ≤ 9 → w.GetTimerBit = 2 ^ b →
    w.tima_reload_state = .running → w.interrupt_requested = false →
    w.div_counter % 2 ^ (b + 1) + n ≤ 4 →
    (Timer.StepN n w).interrupt_requested = false := by
  induction n with
  | zero =>
    intro w b _ _ _ _ hirq _
    exact hirq
  | succ m ih =>
    intro w b hb3 hb9 hbit hst hirq hn
    have e : Timer.StepN (m + 1) w = Timer.StepN m w.Step1 := rfl
    rw [e]
    have hdvd : (2 : Nat) ^ (b + 1) ∣ 65536 := by
      have h := pow_dvd_pow 2 (show b + 1 ≤ 16 by omega)
      norm_num at h
      exact h
    have hM16 : (16 : Nat) ≤ 2 ^ (b + 1) := by
      calc (16 : Nat) = 2 ^ 4 := by norm_num
      _ ≤ 2 ^ (b + 1) := Nat.pow_le_pow_right (by norm_num) (by omega)
    rcases Nat.lt_or_ge (w.div_counter % 2 ^ (b + 1)) 3 with hlt | hge
    · obtain ⟨hd, hti, htm, hta, hts2, hiq⟩ :=
        Timer.step1_quiet w b hb3 hbit (by omega)
      apply ih w.Step1 b hb3 hb9
      · rw [Timer.GetTimerBit_congr hta, hbit]
      · rw [hts2, hst]
      · rw [hiq, hirq]
      · have hres : (w.Step1).div_counter % 2 ^ (b + 1) =
            w.div_counter % 2 ^ (b + 1) + 1 := by
          rw [hd]
          exact mod_step hdvd (by omega) rfl (by omega)
        omega
    · have h3 : w.div_counter % 2 ^ (b + 1) = 3 := by omega
      have hm0 : m = 0 := by omega
      subst hm0
      obtain ⟨hd, hti, htm, hta, hts2, hiq⟩ :=
        Timer.step1_mach w b hb3 hbit h3
      have hadv : w.AdvanceTimaStateMachine = w := Timer.Advance_running hst
      rw [show Timer.StepN 0 w.Step1 = w.Step1 from rfl, hiq, hadv, hirq]

/-- C1: the code raises the frame-sequencer clock flag on a falling edge
of divider bit 4 (mask `0x10` in `Timer::Step`), not bit 12 as `Timer.hpp`,
`Emulator::TickComponents` and the spec state: stepping one T-cycle from
`div_counter = 0x001F` raises the flag although bit 12 is 0 both before
and after (no falling edge of bit 12). -/
theorem div_apu_tap_uses_bit4_not_bit12 :
    (c1Timer.Step1).div_bit12_fell = true ∧
    Nat.testBit c1Timer.div_counter 12 = false ∧
    Nat.testBit (c1Timer.Step1).div_counter 12 = false := by
  decide

/-- C7 counterexample: with the timer disabled in TAC but the selected
tap bit equal to 1, a DIV write does not increment TIMA, refuting
"TIMA increments iff the tap bit selected by TAC was 1 before the
write". -/
theorem div_write_disabled_timer_no_increment :
    c7Timer.div_counter &&& c7Timer.GetTimerBit ≠ 0 ∧
    c7Timer.tima = 0 ∧
    (c7Timer.WriteRegister 0xFF04 0).tima = 0 ∧
    (c7Timer.WriteRegister 0xFF04 0).div_counter = 0 := by
  decide

/-- C7 (amended): any write to DIV zeroes the internal counter, and TIMA
increments iff the timer is enabled (TAC bit 2 set) and the selected tap
bit of the counter was 1 immediately before the write. -/
theorem div_write_resets_counter_and_glitch_increments (t : Timer) (v : Nat) :
    (t.WriteRegister 0xFF04 v).div_counter = 0 ∧
    (t.WriteRegister 0xFF04 v).tima =
      (if t.IsTimerEnabled ∧ t.div_counter &&& t.GetTimerBit ≠ 0 then
        (t.tima + 1) % 256
      else
        t.tima) := by
  have h : t.WriteRegister 0xFF04 v =
      { (if t.IsTimerEnabled ∧ t.div_counter &&& t.GetTimerBit ≠ 0 then
          t.IncreaseTima
        else t) with
        div_counter := 0 } := rfl
  rw [h]
  split_ifs with hc
  · exact ⟨rfl, Timer.IncreaseTima_tima t⟩
  · exact ⟨rfl, rfl⟩

/-- C5: when TIMA increments from 0xFF (a tap falling edge with
`tima = 255`), it reads 0x00 from that T-cycle on, stays 0x00 with no
interrupt latched for the following 3 T-cycles, and exactly 4 T-cycles
after the overflow the interrupt request is latched and TIMA is reloaded
from TMA; a write to TIMA at any of the 4 intermediate points cancels
the reload, and no interrupt is latched through the would-be reload
cycle. -/
theorem tima_overflow_reload_and_cancel (t : Timer) (v : Nat)
    (hen : t.IsTimerEnabled)
    (hedge : t.div_counter % (2 * t.GetTimerBit) = 2 * t.GetTimerBit - 1)
    (htima : t.tima = 255)
    (hst : t.tima_reload_state = .running)
    (hirq : t.interrupt_requested = false) :
    ((Timer.StepN 1 t).tima = 0 ∧
      (Timer.StepN 1 t).tima_reload_state = .reloading) ∧
    (∀ k, 1 ≤ k → k ≤ 4 →
      (Timer.StepN k t).tima = 0 ∧
      (Timer.StepN k t).interrupt_requested = false) ∧
    ((Timer.StepN 5 t).tima = t.tma ∧
      (Timer.StepN 5 t).interrupt_requested = true) ∧
    (∀ k, 1 ≤ k → k ≤ 4 →
      ((Timer.StepN k t).WriteRegister 0xFF05 v).tima_reload_state =
        .running ∧
      ((Timer.StepN k t).WriteRegister 0xFF05 v).tima = v % 256 ∧
      (Timer.StepN (5 - k)
          ((Timer.StepN k t).WriteRegister 0xFF05 v)).interrupt_requested =
        false) := by
  obtain ⟨b, hb3, hb9, hbit⟩ := Timer.GetTimerBit_pow t
  have hM2 : (2 : Nat) * t.GetTimerBit = 2 ^ (b + 1) := by
    rw [hbit]
    ring
  rw [hM2] at hedge
  have hdvd : (2 : Nat) ^ (b + 1) ∣ 65536 := by
    have h := pow_dvd_pow 2 (show b + 1 ≤ 16 by omega)
    norm_num at h
    exact h
  have hM16 : (16 : Nat) ≤ 2 ^ (b + 1) := by
    calc (16 : Nat) = 2 ^ 4 := by norm_num
    _ ≤ 2 ^ (b + 1) := Nat.pow_le_pow_right (by norm_num) (by omega)
  -- step 1: the overflow cycle
  have h1 := Timer.step1_overflow t b hb3 hb9 hbit hen hedge htima hst
  obtain ⟨h1d, h1t, h1s, h1i, h1m, h1a⟩ := h1
  have hbit1 : (t.Step1).GetTimerBit = 2 ^ b := by
    rw [Timer.GetTimerBit_congr h1a, hbit]
  have hr1 : (t.Step1).div_counter % 2 ^ (b + 1) = 0 := by
    rw [h1d]
    exact mod_step_wrap hdvd (by omega) hedge
  -- step 2
  have h2 := Timer.step1_quiet t.Step1 b hb3 hbit1 (by omega)
  obtain ⟨h2d, h2t, h2m, h2a, h2s, h2i⟩ := h2
  have hbit2 : (t.Step1.Step1).GetTimerBit = 2 ^ b := by
    rw [Timer.GetTimerBit_congr h2a, hbit1]
  have hr2 : (t.Step1.Step1).div_counter % 2 ^ (b + 1) = 1 := by
    rw [h2d]
    exact mod_step hdvd (by omega) hr1 (by omega)
  -- step 3
  have h3 := Timer.step1_quiet t.Step1.Step1 b hb3 hbit2 (by omega)
  obtain ⟨h3d, h3t, h3m, h3a, h3s, h3i⟩ := h3
  have hbit3 : (t.Step1.Step1.Step1).GetTimerBit = 2 ^ b := by
    rw [Timer.GetTimerBit_congr h3a, hbit2]
  have hr3 : (t.Step1.Step1.Step1).div_counter % 2 ^ (b + 1) = 2 := by
    rw [h3d]
    exact mod_step hdvd (by omega) hr2 (by omega)
  -- step 4
  have h4 := Timer.step1_quiet t.Step1.Step1.Step1 b hb3 hbit3 (by omega)
  obtain ⟨h4d, h4t, h4m, h4a, h4s, h4i⟩ := h4
  have hbit4 : (t.Step1.Step1.Step1.Step1).GetTimerBit = 2 ^ b := by
    rw [Timer.GetTimerBit_congr h4a, hbit3]
  have hr4 : (t.Step1.Step1.Step1.Step1).div_counter % 2 ^ (b + 1) = 3 := by
    rw [h4d]
    exact mod_step hdvd (by omega) hr3 (by omega)
  -- collected facts about the first four post-overflow states
  have hs1 : (t.Step1).tima_reload_state = .reloading := h1s
  have hs2 : (t.Step1.Step1).tima_reload_state = .reloading := by
    rw [h2s, hs1]
  have hs3 : (t.Step1.Step1.Step1).tima_reload_state = .reloading := by
    rw [h3s, hs2]
  have hs4 : (t.Step1.Step1.Step1.Step1).tima_reload_state = .reloading := by
    rw [h4s, hs3]
  have hi1 : (t.Step1).interrupt_requested = false := by rw [h1i, hirq]
  have hi2 : (t.Step1.Step1).interrupt_requested = false := by rw [h2i, hi1]
  have hi3 : (t.Step1.Step1.Step1).interrupt_requested = false := by
    rw [h3i, hi2]
  have hi4 : (t.Step1.Step1.Step1.Step1).interrupt_requested = false := by
    rw [h4i, hi3]
  have ht1 : (t.Step1).tima = 0 := h1t
  have ht2 : (t.Step1.Step1).tima = 0 := by rw [h2t, ht1]
  have ht3 : (t.Step1.Step1.Step1).tima = 0 := by rw [h3t, ht2]
  have ht4 : (t.Step1.Step1.Step1.Step1).tima = 0 := by rw [h4t, ht3]
  have hm4 : (t.Step1.Step1.Step1.Step1).tma = t.tma := by
    rw [h4m, h3m, h2m, h1m]
  -- step 5: the reload cycle
  have h5 := Timer.step1_mach t.Step1.Step1.Step1.Step1 b hb3 hbit4 hr4
  obtain ⟨h5d, h5t, h5m, h5a, h5s, h5i⟩ := h5
  have hadv := Timer.Advance_reloading hs4
  have ht5 : (t.Step1.Step1.Step1.Step1.Step1).tima = t.tma := by
    rw [h5t, hadv]
    exact hm4
  have hi5 : (t.Step1.Step1.Step1.Step1.Step1).interrupt_requested = true := by
    rw [h5i, hadv]
  refine ⟨⟨ht1, hs1⟩, ?_, ⟨ht5, hi5⟩, ?_⟩
  · intro k hk1 hk4
    interval_cases k
    · exact ⟨ht1, hi1⟩
    · exact ⟨ht2, hi2⟩
    · exact ⟨ht3, hi3⟩
    · exact ⟨ht4, hi4⟩
  · intro k hk1 hk4
    interval_cases k
    · rw [show Timer.StepN 1 t = t.Step1 from rfl,
        Timer.writeTIMA_cancel v hs1]
      exact ⟨rfl, rfl, Timer.run_no_interrupt 4 _ b hb3 hb9 hbit1 rfl hi1
        (show (t.Step1).div_counter % 2 ^ (b + 1) + 4 ≤ 4 by omega)⟩
    · rw [show Timer.StepN 2 t = t.Step1.Step1 from rfl,
        Timer.writeTIMA_cancel v hs2]
      exact ⟨rfl, rfl, Timer.run_no_interrupt 3 _ b hb3 hb9 hbit2 rfl hi2
        (show (t.Step1.Step1).div_counter % 2 ^ (b + 1) + 3 ≤ 4 by omega)⟩
    · rw [show Timer.StepN 3 t = t.Step1.Step1.Step1 from rfl,
        Timer.writeTIMA_cancel v hs3]
      exact ⟨rfl, rfl, Timer.run_no_interrupt 2 _ b hb3 hb9 hbit3 rfl hi3
        (show (t.Step1.Step1.Step1).div_counter % 2 ^ (b + 1) + 2 ≤ 4 by
          omega)⟩
    · rw [show Timer.StepN 4 t = t.Step1.Step1.Step1.Step1 from rfl,
        Timer.writeTIMA_cancel v hs4]
      exact ⟨rfl, rfl, Timer.run_no_interrupt 1 _ b hb3 hb9 hbit4 rfl hi4
        (show (t.Step1.Step1.Step1.Step1).div_counter % 2 ^ (b + 1) + 1 ≤ 4 by
          omega)⟩

/-- Witness for C5 at the concrete state `c5Timer` and TIMA write value
7. -/
theorem tima_overflow_reload_and_cancel_witness :
    c5Timer.IsTimerEnabled ∧
    c5Timer.div_counter % (2 * c5Timer.GetTimerBit) =
      2 * c5Timer.GetTimerBit - 1 ∧
    c5Timer.tima = 255 ∧
    c5Timer.tima_reload_state = .running ∧
    c5Timer.interrupt_requested = false ∧
    (Timer.StepN 1 c5Timer).tima = 0 ∧
    (Timer.StepN 5 c5Timer).tima = c5Timer.tma ∧
    (Timer.StepN 5 c5Timer).interrupt_requested = true ∧
    ((Timer.StepN 2 c5Timer).WriteRegister 0xFF05 7).tima_reload_state =
      .running ∧
    (Timer.StepN 3
        ((Timer.StepN 2 c5Timer).WriteRegister 0xFF05 7)).interrupt_requested =
      false := by
  have h := tima_overflow_reload_and_cancel c5Timer 7 (by decide) (by decide)
    (by decide) (by decide) (by decide)
  exact ⟨by decide, by decide, by decide, by decide, by decide, h.1.1,
    h.2.2.1.1, h.2.2.1.2, (h.2.2.2 2 (by norm_num) (by norm_num)).1,
    (h.2.2.2 2 (by norm_num) (by norm_num)).2.2⟩

/-- C9: writing any byte `v` to IE and reading it back returns exactly
`v` (all 8 bits stored), while writing `v` to IF stores only
`v & 0x1F` and reading IF returns the stored bits with the upper three
bits forced to 1. -/
theorem ie_unmasked_if_masked (ic : InterruptController) (v : Nat)
    (hv : v < 256) :
    (ic.WriteIE v).ReadIE = v ∧
    (ic.WriteIF v).interrupt_flag = v &&& 0x1F ∧
    (ic.WriteIF v).ReadIF = (v &&& 0x1F) ||| 0xE0 := by
  have hm : v % 256 = v := Nat.mod_eq_of_lt hv
  refine ⟨?_, ?_, ?_⟩
  · show v % 256 = v
    exact hm
  · show (v % 256) &&& 0x1F = v &&& 0x1F
    rw [hm]
  · show ((v % 256) &&& 0x1F) ||| 0xE0 = (v &&& 0x1F) ||| 0xE0
    rw [hm]

/-- Witness for C9 at `v = 0xAB`. -/
theorem ie_unmasked_if_masked_witness :
    (0xAB : Nat) < 256 ∧
    ((InterruptController.mk 0 0).WriteIE 0xAB).ReadIE = 0xAB ∧
    ((InterruptController.mk 0 0).WriteIF 0xAB).interrupt_flag =
      0xAB &&& 0x1F ∧
    ((InterruptController.mk 0 0).WriteIF 0xAB).ReadIF =
      (0xAB &&& 0x1F) ||| 0xE0 :=
  ⟨by norm_num, ie_unmasked_if_masked (InterruptController.mk 0 0) 0xAB
    (by norm_num)⟩

/-- C8: executing HALT with IME = 0 and a pending interrupt does not
enter the halt state but sets the halt-bug latch, and the following
fetch reads the byte at PC while leaving PC unchanged, so the same byte
will be fetched again by the next fetch. -/
theorem halt_bug_duplicates_fetch (ic : InterruptController)
    (cpu : CPUState) (mem : Nat → Nat)
    (hime : cpu.ime = false)
    (hpend : ic.ReadIF &&& ic.ReadIE &&& 0x1F ≠ 0)
    (hpc : cpu.pc < 65536) :
    (HALT ic cpu).halted = cpu.halted ∧
    (HALT ic cpu).halt_bug = true ∧
    (stepFetch mem (HALT ic cpu)).1 = (mem cpu.pc) % 256 ∧
    (stepFetch mem (HALT ic cpu)).2.pc = cpu.pc ∧
    (stepFetch mem (HALT ic cpu)).2.halt_bug = false := by
  have hH : HALT ic cpu = { cpu with halt_bug := true } := by
    unfold HALT
    rw [if_pos hime, if_pos hpend]
  rw [hH]
  have hF : stepFetch mem { cpu with halt_bug := true } =
      ((mem cpu.pc) % 256,
        { cpu with pc := ((cpu.pc + 1) % 65536 + 65535) % 65536,
                   halt_bug := false }) := by
    unfold stepFetch FetchByte
    rw [if_pos rfl]
  rw [hF]
  refine ⟨rfl, rfl, rfl, ?_, rfl⟩
  show ((cpu.pc + 1) % 65536 + 65535) % 65536 = cpu.pc
  omega

/-- Witness for C8: IF = IE = 1 (VBlank pending), IME = 0, PC = 0x1234,
memory holding 0x77 at 0x1234. -/
theorem halt_bug_duplicates_fetch_witness :
    ((InterruptController.mk 1 1).ReadIF &&&
      (InterruptController.mk 1 1).ReadIE &&& 0x1F ≠ 0) ∧
    (HALT (InterruptController.mk 1 1)
      (CPUState.mk 0x1234 false false false)).halted = false ∧
    (HALT (InterruptController.mk 1 1)
      (CPUState.mk 0x1234 false false false)).halt_bug = true ∧
    (stepFetch (fun _ => 0x77)
      (HALT (InterruptController.mk 1 1)
        (CPUState.mk 0x1234 false false false))).2.pc = 0x1234 := by
  have h := halt_bug_duplicates_fetch (InterruptController.mk 1 1)
    (CPUState.mk 0x1234 false false false) (fun _ => 0x77)
    (by decide) (by decide) (by norm_num)
  exact ⟨by decide, h.1, h.2.1, h.2.2.2.1⟩

theorem pushByte_pc (s : DispatchState) (v : Nat) :
    (pushByte s v).pc = s.pc := by
  unfold pushByte dspWrite
  split_ifs <;> rfl

theorem pushByte_sp (s : DispatchState) (v : Nat) :
    (pushByte s v).sp = (s.sp + 65535) % 65536 := by
  unfold pushByte dspWrite
  split_ifs <;> rfl

theorem pushByte_ic (s : DispatchState) (v : Nat) :
    (pushByte s v).ic =
      (if (s.sp + 65535) % 65536 = 0xFF0F then s.ic.WriteIF v
      else if (s.sp + 65535) % 65536 = 0xFFFF then s.ic.WriteIE v
      else s.ic) := by
  unfold pushByte dspWrite
  split_ifs <;> rfl

/-- Variant of `pushByte_ic` with the stack pointer value named, so the
branch conditions come out in terms of the caller's expression. -/
theorem pushByte_ic_of_sp (s : DispatchState) (v w : Nat) (hw : s.sp = w) :
    (pushByte s v).ic =
      (if (w + 65535) % 65536 = 0xFF0F then s.ic.WriteIF v
      else if (w + 65535) % 65536 = 0xFFFF then s.ic.WriteIE v
      else s.ic) := by
  subst hw
  exact pushByte_ic s v

/-- A push whose target is not $FF0F leaves the IF register unchanged. -/
theorem pushByte_flag (s : DispatchState) (v : Nat)
    (h : (s.sp + 65535) % 65536 ≠ 0xFF0F) :
    (pushByte s v).ic.interrupt_flag = s.ic.interrupt_flag := by
  rw [pushByte_ic, if_neg h]
  split_ifs <;> rfl

/-- Variant of `pushByte_flag` with the stack pointer value named. -/
theorem pushByte_flag_of_sp (s : DispatchState) (v w : Nat) (hw : s.sp = w)
    (h : (w + 65535) % 65536 ≠ 0xFF0F) :
    (pushByte s v).ic.interrupt_flag = s.ic.interrupt_flag := by
  subst hw
  exact pushByte_flag s v h

/-- `dispatchInterrupt` when the re-evaluated pending set is zero: both
pushes happen and PC is loaded with 0x0000. -/
theorem dispatchInterrupt_cancel (s : DispatchState) (if_reg : Nat)
    (h0 : if_reg &&& dspRead (pushByte s (s.pc >>> 8)) 0xFFFF &&&
      0x1F = 0) :
    dispatchInterrupt s if_reg =
      { pushByte (pushByte s (s.pc >>> 8))
          ((pushByte s (s.pc >>> 8)).pc &&& 0xFF) with pc := 0 } := by
  unfold dispatchInterrupt
  dsimp only
  rw [if_pos h0]

/-- `dispatchInterrupt` when the re-evaluated pending set is nonzero:
both pushes happen, the lowest set bit is selected, its IF bit is
cleared through the bus and PC is loaded with the vector. -/
theorem dispatchInterrupt_select (s : DispatchState) (if_reg : Nat)
    (hne : if_reg &&& dspRead (pushByte s (s.pc >>> 8)) 0xFFFF &&&
      0x1F ≠ 0) :
    dispatchInterrupt s if_reg =
      { dspWrite
          (pushByte (pushByte s (s.pc >>> 8))
            ((pushByte s (s.pc >>> 8)).pc &&& 0xFF))
          0xFF0F
          (if_reg &&& (0xFF ^^^ (1 <<< lowestSetBit5
            (if_reg &&& dspRead (pushByte s (s.pc >>> 8)) 0xFFFF &&&
              0x1F)))) with
        pc := 0x40 + lowestSetBit5
          (if_reg &&& dspRead (pushByte s (s.pc >>> 8)) 0xFFFF &&&
            0x1F) * 8 } := by
  unfold dispatchInterrupt
  dsimp only
  rw [if_neg hne]

theorem or_e0_masked (f e : Nat) :
    (f ||| 0xE0) &&& e &&& 0x1F = f &&& e &&& 0x1F := by
  apply Nat.eq_of_testBit_eq
  intro i
  simp only [Nat.testBit_and, Nat.testBit_or]
  by_cases hi : i < 5
  · have h1 : Nat.testBit 0xE0 i = false := by interval_cases i <;> decide
    rw [h1]
    simp
  · have h2 : Nat.testBit 0x1F i = false := by
      apply Nat.testBit_lt_two_pow
      calc (0x1F : Nat) < 2 ^ 5 := by norm_num
      _ ≤ 2 ^ i := Nat.pow_le_pow_right (by norm_num) (by omega)
    rw [h2]
    simp

theorem clear_bit_self : ∀ f < 32, ∀ j < 5,
    ((f ||| 0xE0) &&& (0xFF ^^^ (1 <<< j)) &&& 0x1F).testBit j = false := by
  decide

theorem clear_bit_other : ∀ f < 32, ∀ j < 5, ∀ i < 5, i ≠ j →
    ((f ||| 0xE0) &&& (0xFF ^^^ (1 <<< j)) &&& 0x1F).testBit i =
      f.testBit i := by
  decide

theorem lowestSetBit5_lt (n : Nat) : lowestSetBit5 n < 5 := by
  unfold lowestSetBit5
  split_ifs <;> norm_num

theorem lowestSetBit5_spec : ∀ n < 32, n ≠ 0 →
    n.testBit (lowestSetBit5 n) = true ∧
    ∀ i < lowestSetBit5 n, n.testBit i = false := by
  decide

theorem and_1f_lt (x : Nat) : x &&& 0x1F < 32 := by
  have h := Nat.and_pow_two_sub_one_eq_mod x 5
  norm_num at h
  omega

/-- C2: entering dispatch with IME set and a nonzero pending set (and
the two pushed stack bytes not landing on $FF0F, where a push would
itself overwrite IF), the pending set is re-evaluated after the PC-high
push against the possibly modified IE (that push may land on $FFFF):
call it `np`.  If `np` is zero, PC becomes 0x0000 and no IF bit is
cleared; otherwise the lowest set bit `j` of `np` is selected, PC
becomes `0x40 + j*8`, bit `j` of IF is cleared and the other five-bit
IF bits keep their original values. -/
theorem interrupt_dispatch_reevaluation (s : DispatchState)
    (hime : s.ime = true)
    (hpc : s.pc < 65536)
    (hif : s.ic.interrupt_flag < 32)
    (hie : s.ic.interrupt_enable < 256)
    (hp : s.ic.interrupt_flag &&& s.ic.interrupt_enable &&& 0x1F ≠ 0)
    (hnot1 : (s.sp + 65535) % 65536 ≠ 0xFF0F)
    (hnot2 : ((s.sp + 65535) % 65536 + 65535) % 65536 ≠ 0xFF0F) :
    ∀ np, np = s.ic.interrupt_flag &&&
        (if (s.sp + 65535) % 65536 = 0xFFFF then s.pc >>> 8
        else s.ic.interrupt_enable) &&& 0x1F →
    (np = 0 →
      (HandleInterrupts s).pc = 0 ∧
      (HandleInterrupts s).ic.interrupt_flag = s.ic.interrupt_flag) ∧
    (np ≠ 0 →
      (HandleInterrupts s).pc = 0x40 + lowestSetBit5 np * 8 ∧
      ((HandleInterrupts s).ic.interrupt_flag).testBit (lowestSetBit5 np) =
        false ∧
      (∀ i, i < 5 → i ≠ lowestSetBit5 np →
        ((HandleInterrupts s).ic.interrupt_flag).testBit i =
          (s.ic.interrupt_flag).testBit i) ∧
      np.testBit (lowestSetBit5 np) = true ∧
      (∀ i, i < lowestSetBit5 np → np.testBit i = false)) := by
  intro np hnp
  have hhiv : s.pc >>> 8 < 256 := by
    rw [Nat.shiftRight_eq_div_pow]
    omega
  have hhim : (s.pc >>> 8) % 256 = s.pc >>> 8 := Nat.mod_eq_of_lt hhiv
  have hfe : dspRead s 0xFF0F &&& dspRead s 0xFFFF &&& 0x1F ≠ 0 := by
    show (s.ic.interrupt_flag ||| 0xE0) &&& s.ic.interrupt_enable &&&
        0x1F ≠ 0
    rw [or_e0_masked s.ic.interrupt_flag s.ic.interrupt_enable]
    exact hp
  have hkey : HandleInterrupts s =
      dispatchInterrupt { s with halted := false, ime := false }
        (s.ic.interrupt_flag ||| 0xE0) := by
    unfold HandleInterrupts
    dsimp only
    rw [if_neg hfe, if_neg (by simp [hime])]
    rfl
  rw [hkey]
  -- the interrupt-controller contents after the PC-high push
  have hXic : (pushByte { s with halted := false, ime := false }
        (({ s with halted := false, ime := false } : DispatchState).pc >>>
          8)).ic =
      (if (s.sp + 65535) % 65536 = 0xFF0F then
        s.ic.WriteIF (s.pc >>> 8)
      else if (s.sp + 65535) % 65536 = 0xFFFF then
        s.ic.WriteIE (s.pc >>> 8)
      else s.ic) :=
    pushByte_ic { s with halted := false, ime := false } _
  rw [if_neg hnot1] at hXic
  have hie2 : dspRead (pushByte { s with halted := false, ime := false }
        (({ s with halted := false, ime := false } : DispatchState).pc >>>
          8)) 0xFFFF =
      (if (s.sp + 65535) % 65536 = 0xFFFF then s.pc >>> 8
      else s.ic.interrupt_enable) := by
    show (pushByte { s with halted := false, ime := false }
        (({ s with halted := false, ime := false } : DispatchState).pc >>>
          8)).ic.interrupt_enable = _
    rw [hXic]
    split_ifs
    · exact hhim
    · rfl
  have hnpcode : (s.ic.interrupt_flag ||| 0xE0) &&&
      dspRead (pushByte { s with halted := false, ime := false }
        (({ s with halted := false, ime := false } : DispatchState).pc >>>
          8)) 0xFFFF &&& 0x1F = np := by
    rw [hie2, or_e0_masked]
    exact hnp.symm
  -- the IF contents after both pushes (neither lands on $FF0F)
  have hXsp : (pushByte { s with halted := false, ime := false }
        (({ s with halted := false, ime := false } : DispatchState).pc >>>
          8)).sp = (s.sp + 65535) % 65536 :=
    pushByte_sp { s with halted := false, ime := false } _
  have hfX : (pushByte { s with halted := false, ime := false }
      (s.pc >>> 8)).ic.interrupt_flag = s.ic.interrupt_flag :=
    pushByte_flag { s with halted := false, ime := false } _ hnot1
  have hXsp2 : (pushByte { s with halted := false, ime := false }
      (s.pc >>> 8)).sp = (s.sp + 65535) % 65536 :=
    pushByte_sp { s with halted := false, ime := false } _
  have hflag3 : (pushByte (pushByte { s with halted := false, ime := false }
        (s.pc >>> 8))
      ((pushByte { s with halted := false, ime := false }
        (s.pc >>> 8)).pc &&& 0xFF)).ic.interrupt_flag =
      s.ic.interrupt_flag :=
    (pushByte_flag_of_sp
      (pushByte { s with halted := false, ime := false } (s.pc >>> 8))
      ((pushByte { s with halted := false, ime := false }
        (s.pc >>> 8)).pc &&& 0xFF)
      ((s.sp + 65535) % 65536) hXsp2 hnot2).trans hfX
  constructor
  · intro h0
    rw [dispatchInterrupt_cancel _ _ (hnpcode.trans h0)]
    refine ⟨rfl, ?_⟩
    dsimp only
    exact hflag3
  · intro hne
    rw [dispatchInterrupt_select _ _ (fun hz => hne (hnpcode.symm.trans hz)),
      hnpcode]
    have hj5 : lowestSetBit5 np < 5 := lowestSetBit5_lt np
    have hnp32 : np < 32 := by
      rw [hnp]
      exact and_1f_lt _
    have hwlt : (s.ic.interrupt_flag ||| 0xE0) &&&
        (0xFF ^^^ (1 <<< lowestSetBit5 np)) < 256 := by
      have h1 : s.ic.interrupt_flag ||| 0xE0 < 256 :=
        Nat.or_lt_two_pow (n := 8) (by omega) (by norm_num)
      have h2 := Nat.and_le_left (n := s.ic.interrupt_flag ||| 0xE0)
        (m := 0xFF ^^^ (1 <<< lowestSetBit5 np))
      omega
    have hflagw : ∀ ic : InterruptController,
        (ic.WriteIF ((s.ic.interrupt_flag ||| 0xE0) &&&
          (0xFF ^^^ (1 <<< lowestSetBit5 np)))).interrupt_flag =
        (s.ic.interrupt_flag ||| 0xE0) &&&
          (0xFF ^^^ (1 <<< lowestSetBit5 np)) &&& 0x1F := by
      intro ic
      show ((s.ic.interrupt_flag ||| 0xE0) &&&
        (0xFF ^^^ (1 <<< lowestSetBit5 np))) % 256 &&& 0x1F = _
      rw [Nat.mod_eq_of_lt hwlt]
    refine ⟨rfl, ?_, ?_, (lowestSetBit5_spec np hnp32 hne).1,
      (lowestSetBit5_spec np hnp32 hne).2⟩
    · dsimp only
      show ((pushByte (pushByte { s with halted := false, ime := false }
            (s.pc >>> 8))
          ((pushByte { s with halted := false, ime := false }
            (s.pc >>> 8)).pc &&& 0xFF)).ic.WriteIF
          ((s.ic.interrupt_flag ||| 0xE0) &&&
            (0xFF ^^^ (1 <<< lowestSetBit5 np)))).interrupt_flag.testBit
          (lowestSetBit5 np) = false
      rw [hflagw]
      exact clear_bit_self s.ic.interrupt_flag hif (lowestSetBit5 np) hj5
    · intro i hi5 hij
      dsimp only
      show ((pushByte (pushByte { s with halted := false, ime := false }
            (s.pc >>> 8))
          ((pushByte { s with halted := false, ime := false }
            (s.pc >>> 8)).pc &&& 0xFF)).ic.WriteIF
          ((s.ic.interrupt_flag ||| 0xE0) &&&
            (0xFF ^^^ (1 <<< lowestSetBit5 np)))).interrupt_flag.testBit
          i = (s.ic.interrupt_flag).testBit i
      rw [hflagw]
      exact clear_bit_other s.ic.interrupt_flag hif (lowestSetBit5 np) hj5
        i hi5 hij

/-- Witness for C2 at `c2State` with re-evaluated pending set 1. -/
theorem interrupt_dispatch_reevaluation_witness :
    c2State.ime = true ∧
    c2State.ic.interrupt_flag &&& c2State.ic.interrupt_enable &&& 0x1F ≠
      0 ∧
    (HandleInterrupts c2State).pc = 0x40 + lowestSetBit5 1 * 8 ∧
    ((HandleInterrupts c2State).ic.interrupt_flag).testBit
      (lowestSetBit5 1) = false := by
  have h := interrupt_dispatch_reevaluation c2State (by decide) (by decide)
    (by decide) (by decide) (by decide) (by decide) (by decide) 1
    (by decide)
  exact ⟨rfl, by decide, (h.2 (by decide)).1, (h.2 (by decide)).2.1⟩

/-- C6: while DMA is active, a CPU read below $FE00 whose bus class
equals the class of the DMA source returns 0xFF; a read below $FE00 of
a differing class, and any read of the I/O, HRAM or IE region
($FF00-$FFFF), returns exactly what the same bus returns with DMA
inactive. -/
theorem dma_bus_conflict (b : Bus) (addr : Nat)
    (hdma : b.dma_active = true) :
    (addr < 0xFE00 →
      (GetBusForAddress addr = GetBusForAddress b.dma_source →
        b.Read addr = 0xFF) ∧
      (GetBusForAddress addr ≠ GetBusForAddress b.dma_source →
        b.Read addr = Bus.Read { b with dma_active := false } addr)) ∧
    (0xFF00 ≤ addr →
      b.Read addr = Bus.Read { b with dma_active := false } addr) := by
  have hnodma : Bus.Read { b with dma_active := false } addr =
      b.Decode addr := by
    unfold Bus.Read
    rw [if_neg]
    · rfl
    · rintro ⟨hact, -, -⟩
      exact Bool.false_ne_true hact
  constructor
  · intro hlt
    constructor
    · intro hcls
      unfold Bus.Read
      rw [if_pos ⟨hdma, hlt, hcls⟩]
    · intro hcls
      have hl : b.Read addr = b.Decode addr := by
        unfold Bus.Read
        rw [if_neg (fun h => hcls h.2.2)]
      rw [hl, hnodma]
  · intro hge
    have hl : b.Read addr = b.Decode addr := by
      unfold Bus.Read
      rw [if_neg (fun h => by omega)]
    rw [hl, hnodma]

/-- Witness for C6: a work-RAM read conflicts (0xFF), a VRAM read and a
HRAM read decode normally. -/
theorem dma_bus_conflict_witness :
    c6Bus.dma_active = true ∧
    c6Bus.Read 0xD000 = 0xFF ∧
    c6Bus.Read 0x8000 = Bus.Read { c6Bus with dma_active := false } 0x8000 ∧
    c6Bus.Read 0xFF80 = Bus.Read { c6Bus with dma_active := false } 0xFF80 := by
  have h1 := dma_bus_conflict c6Bus 0xD000 rfl
  have h2 := dma_bus_conflict c6Bus 0x8000 rfl
  have h3 := dma_bus_conflict c6Bus 0xFF80 rfl
  exact ⟨rfl, (h1.1 (by norm_num)).1 (by decide),
    (h2.1 (by norm_num)).2 (by decide), h3.2 (by norm_num)⟩

/-- C3: evaluating `APU::WriteRegister(0xFF26, ...)` at a powered-on
state with nonzero length counters: the power-off write zeroes the
length counters along with the rest of the channel, mixer and
frame-sequencer state (wave RAM alone survives), and powering back on
restores only the zeroes saved at the top of the second call — the
pre-power-off values 5, 6, 7, 8 are lost, contradicting the claim and
the code's own SameBoy-derived save/restore comments. -/
theorem nr52_power_cycle_loses_length_counters :
    c3APU.power_on = true ∧
    c3APU.ch1.length_counter = 5 ∧
    (c3APU.WriteNR52 0x00).ch1.length_counter = 0 ∧
    (c3APU.WriteNR52 0x00).ch2.length_counter = 0 ∧
    (c3APU.WriteNR52 0x00).ch3.length_counter = 0 ∧
    (c3APU.WriteNR52 0x00).ch4.length_counter = 0 ∧
    (c3APU.WriteNR52 0x00).nr50 = 0 ∧
    (c3APU.WriteNR52 0x00).frame_sequencer_step = 0 ∧
    (c3APU.WriteNR52 0x00).power_on = false ∧
    (∀ i : Fin 16, (c3APU.WriteNR52 0x00).wave_ram i = c3APU.wave_ram i) ∧
    ((c3APU.WriteNR52 0x00).WriteNR52 0x80).power_on = true ∧
    ((c3APU.WriteNR52 0x00).WriteNR52 0x80).ch1.length_counter = 0 ∧
    ((c3APU.WriteNR52 0x00).WriteNR52 0x80).ch2.length_counter = 0 ∧
    ((c3APU.WriteNR52 0x00).WriteNR52 0x80).ch3.length_counter = 0 ∧
    ((c3APU.WriteNR52 0x00).WriteNR52 0x80).ch4.length_counter = 0 := by
  decide

/-- C10: a wave-RAM write stores the byte at the given index
unconditionally (for any APU state, in particular with channel 3
active), leaving the other fifteen bytes and the channel state
untouched, while a wave-RAM read with channel 3 active outside the
just-read window returns 0xFF. -/
theorem wave_ram_write_unconditional (a : APU) (i : Fin 16) (v : Nat)
    (hv : v < 256) :
    (a.WriteWaveRAM i v).wave_ram i = v ∧
    (∀ j : Fin 16, j ≠ i → (a.WriteWaveRAM i v).wave_ram j = a.wave_ram j) ∧
    (a.WriteWaveRAM i v).ch3 = a.ch3 ∧
    (a.ch3.enabled = true → a.ch3.wave_form_just_read = false →
      a.ReadWaveRAM i = 0xFF) := by
  refine ⟨?_, ?_, rfl, ?_⟩
  · show Function.update a.wave_ram i (v % 256) i = v
    rw [Function.update_same, Nat.mod_eq_of_lt hv]
  · intro j hj
    show Function.update a.wave_ram i (v % 256) j = a.wave_ram j
    rw [Function.update_noteq hj]
  · intro he hw
    unfold APU.ReadWaveRAM
    rw [if_pos he, if_neg (fun h => Bool.false_ne_true (hw.symm.trans h))]

/-- Witness for C10 at index 3, value 0x5C. -/
theorem wave_ram_write_unconditional_witness :
    (0x5C : Nat) < 256 ∧
    (c10APU.WriteWaveRAM 3 0x5C).wave_ram 3 = 0x5C ∧
    (c10APU.WriteWaveRAM 3 0x5C).ch3 = c10APU.ch3 ∧
    c10APU.ReadWaveRAM 3 = 0xFF := by
  have h := wave_ram_write_unconditional c10APU 3 0x5C (by norm_num)
  exact ⟨by norm_num, h.1, h.2.2.1, h.2.2.2 rfl rfl⟩

theorem insertSprite_mem (l : List SpriteEntry) (s t : SpriteEntry)
    (h : t ∈ insertSprite l s) : t = s ∨ t ∈ l := by
  induction l with
  | nil =>
    unfold insertSprite at h
    exact Or.inl (List.mem_singleton.mp h)
  | cons a rest ih =>
    unfold insertSprite at h
    split_ifs at h with hc
    · rcases List.mem_cons.mp h with h2 | h2
      · exact Or.inl h2
      · exact Or.inr h2
    · rcases List.mem_cons.mp h with h2 | h2
      · exact Or.inr (List.mem_cons.mpr (Or.inl h2))
      · rcases ih h2 with h3 | h3
        · exact Or.inl h3
        · exact Or.inr (List.mem_cons.mpr (Or.inr h3))

theorem insertSprite_length (l : List SpriteEntry) (s : SpriteEntry) :
    (insertSprite l s).length = l.length + 1 := by
  induction l with
  | nil => rfl
  | cons a rest ih =>
    unfold insertSprite
    split_ifs
    · rfl
    · simp [ih]

theorem insertSprite_pairwise (l : List SpriteEntry) (s : SpriteEntry)
    (hp : List.Pairwise SpriteOrder l)
    (hidx : ∀ a ∈ l, a.oam_index < s.oam_index) :
    List.Pairwise SpriteOrder (insertSprite l s) := by
  induction l with
  | nil => simp [insertSprite]
  | cons a rest ih =>
    rcases List.pairwise_cons.mp hp with ⟨ha, hrest⟩
    unfold insertSprite
    split_ifs with hc
    · refine List.pairwise_cons.mpr ⟨?_, hp⟩
      intro t ht
      rcases List.mem_cons.mp ht with h | h
      · subst h
        rcases Nat.lt_or_ge t.x s.x with hx | hx
        · exact Or.inl hx
        · exact Or.inr ⟨by omega, hidx t (by simp)⟩
      · have hat := ha t h
        have htx : t.x ≤ a.x := by
          rcases hat with h2 | h2
          · omega
          · omega
        rcases Nat.lt_or_ge t.x s.x with hx | hx
        · exact Or.inl hx
        · exact Or.inr ⟨by omega, hidx t (by simp [h])⟩
    · refine List.pairwise_cons.mpr ⟨?_, ?_⟩
      · intro t ht
        rcases insertSprite_mem rest s t ht with h | h
        · subst h
          exact Or.inl (by omega)
        · exact ha t h
      · exact ih hrest (fun b hb => hidx b (by simp [hb]))

/-- The retained-sprite invariant through the scan of a list of OAM
entry indices. -/
theorem oamScan_inv (oam : Nat → Nat) (ly : Nat) (tall : Bool) :
    ∀ (ents : List Nat) (acc : List SpriteEntry),
    List.Pairwise (· < ·) ents →
    (∀ e ∈ ents, e < 40) →
    List.Pairwise SpriteOrder acc →
    (∀ s ∈ acc, s.y ≤ ly + 16 ∧
      ly + 16 < s.y + (if tall then 16 else 8) ∧ s.oam_index < 40) →
    (∀ s ∈ acc, ∀ e ∈ ents, s.oam_index < e) →
    acc.length ≤ 10 →
    List.Pairwise SpriteOrder
      (ents.foldl (oamScanStep oam ly tall) acc) ∧
    (∀ s ∈ ents.foldl (oamScanStep oam ly tall) acc,
      s.y ≤ ly + 16 ∧
      ly + 16 < s.y + (if tall then 16 else 8) ∧ s.oam_index < 40) ∧
    (ents.foldl (oamScanStep oam ly tall) acc).length ≤ 10 := by
  intro ents
  induction ents with
  | nil =>
    intro acc _ _ hp hcov _ hlen
    exact ⟨hp, hcov, hlen⟩
  | cons e rest ih =>
    intro acc hpe he40 hp hcov hidx hlen
    rw [List.foldl_cons]
    rcases List.pairwise_cons.mp hpe with ⟨helt, hprest⟩
    have hstep : List.Pairwise SpriteOrder (oamScanStep oam ly tall acc e) ∧
        (∀ s ∈ oamScanStep oam ly tall acc e, s.y ≤ ly + 16 ∧
          ly + 16 < s.y + (if tall then 16 else 8) ∧ s.oam_index < 40) ∧
        (∀ s ∈ oamScanStep oam ly tall acc e, ∀ x ∈ rest,
          s.oam_index < x) ∧
        (oamScanStep oam ly tall acc e).length ≤ 10 := by
      unfold oamScanStep
      dsimp only
      by_cases h10 : acc.length < 10
      rotate_right
      · rw [if_neg h10]
        exact ⟨hp, hcov,
          fun s hs x hx => hidx s hs x (List.mem_cons.mpr (Or.inr hx)),
          hlen⟩
      rw [if_pos h10]
      by_cases hcover : oam (e * 4) % 256 ≤ ly + 16 ∧
        ly + 16 < oam (e * 4) % 256 + (if tall then 16 else 8)
      rotate_right
      · rw [if_neg hcover]
        exact ⟨hp, hcov,
          fun s hs x hx => hidx s hs x (List.mem_cons.mpr (Or.inr hx)),
          hlen⟩
      rw [if_pos hcover]
      · refine ⟨?_, ?_, ?_, ?_⟩
        · refine insertSprite_pairwise acc _ hp ?_
          intro a ha
          exact hidx a ha e (List.mem_cons_self e rest)
        · intro s hs
          rcases insertSprite_mem _ _ _ hs with h | h
          · subst h
            exact ⟨hcover.1, hcover.2, he40 e (List.mem_cons_self e rest)⟩
          · exact hcov s h
        · intro s hs x hx
          rcases insertSprite_mem _ _ _ hs with h | h
          · subst h
            exact helt x hx
          · exact hidx s h x (List.mem_cons.mpr (Or.inr hx))
        · rw [insertSprite_length]
          omega
    exact ih (oamScanStep oam ly tall acc e) hprest
      (fun x hx => he40 x (List.mem_cons.mpr (Or.inr hx))) hstep.1
      hstep.2.1 hstep.2.2.1 hstep.2.2.2

set_option maxRecDepth 4000 in
/-- C4 counterexample: the retained list of the scan at line 0 is
`[X=20, X=10]`, which is not sorted by X ascending. -/
theorem oam_scan_not_ascending :
    (oamScan c4OAM 0 false).map SpriteEntry.x = [20, 10] ∧
    ¬ List.Pairwise (· ≤ ·) ((oamScan c4OAM 0 false).map SpriteEntry.x) := by
  decide

/-- C4 (amended): at the end of the mode-2 scan the retained list has
at most 10 sprites, each covering the current line, and is sorted by X
descending; among sprites with equal X the one with the higher OAM
index (scanned later) comes first. -/
theorem oam_scan_sorted_descending (oam : Nat → Nat) (ly : Nat)
    (tall : Bool) :
    (oamScan oam ly tall).length ≤ 10 ∧
    (∀ s ∈ oamScan oam ly tall, s.y ≤ ly + 16 ∧
      ly + 16 < s.y + (if tall then 16 else 8) ∧ s.oam_index < 40) ∧
    List.Pairwise SpriteOrder (oamScan oam ly tall) := by
  have h := oamScan_inv oam ly tall (List.range 40) []
    (List.pairwise_lt_range 40)
    (fun e he => List.mem_range.mp he)
    (List.Pairwise.nil)
    (by intro s hs; simp at hs)
    (by intro s hs; simp at hs)
    (by simp)
  exact ⟨h.2.2, h.2.1, h.1⟩

end GBEmu
